import Mathlib

/-
Verification of `vmware_fixed_addresses.py` (jvtm/vmware-fusion-helpers).

This file is a shallow embedding of the script into Lean:
* machine addresses are naturals below 2^32,
* Python dicts are association lists (insertion-ordered, like Python 3.7+ dicts),
* fallible code returns `Except Err`,
* the line-oriented regex matchers are translated into explicit character-level
  functions with the same matching semantics.
-/

set_option maxRecDepth 8192

namespace VMF

/-- Python error kinds that the script can raise. -/
inductive Err where
  | keyError (k : String)
  | indexError
  | typeError
  | valueError
  | nameError
  | attributeError
  | ioError (f : String)
deriving DecidableEq

deriving instance DecidableEq for Except

/-- Association list lookup; first binding wins (Python dict lookup). -/
def lookupA {α : Type} (k : String) : List (String × α) → Option α
  | [] => none
  | (k', v) :: rest => if k' = k then some v else lookupA k rest

/-- Association list update (Python dict assignment: an existing key keeps its
position, a new key is appended at the end). -/
def setA {α : Type} (k : String) (v : α) : List (String × α) → List (String × α)
  | [] => [(k, v)]
  | (k', v') :: rest => if k' = k then (k, v) :: rest else (k', v') :: setA k v rest

/-- Sequential `Except`-valued map (the effect of Python list comprehensions
and generator consumption: the first raised error wins). -/
def mapME {α β : Type} (f : α → Except Err β) : List α → Except Err (List β)
  | [] => .ok []
  | a :: l =>
    match f a with
    | .error e => .error e
    | .ok b =>
      match mapME f l with
      | .error e => .error e
      | .ok bs => .ok (b :: bs)

/-- An IPv4 network: network address plus prefix length, mirroring
`ipaddress.IPv4Network` (addresses are plain naturals below `2^32`).
Every network value `ipaddress` can construct has its host bits zero
(`strict=True` raises on host bits, `strict=False` masks them), so the
network address is always aligned to the block size; theorems quantifying
over arbitrary `Net` values carry that alignment as a hypothesis. -/
structure Net where
  addr : Nat
  plen : Nat
deriving DecidableEq

/-- IPv4 `max_prefixlen`. -/
def Net.maxPrefixLen : Nat := 32

/-- `num_addresses`: number of addresses in the block. -/
def Net.size (n : Net) : Nat := 2 ^ (Net.maxPrefixLen - n.plen)

/-- The broadcast address (`network_address | hostmask`), which for the
aligned network values `ipaddress` constructs is the last address of the
block. -/
def Net.lastAddr (n : Net) : Nat := n.addr + n.size - 1

/-- Python `address in network`: `_BaseNetwork.__contains__` tests
`address & netmask == network_address`, which for an aligned network is
exactly `network_address <= address <= broadcast_address`. -/
def Net.containsAddr (n : Net) (a : Nat) : Bool :=
  decide (n.addr ≤ a) && decide (a ≤ n.lastAddr)

/-- `IPv4Network.overlaps`, translated from `ipaddress._BaseNetwork.overlaps`:
`self.network_address in other or self.broadcast_address in other or
 other.network_address in self or other.broadcast_address in self`. -/
def Net.overlaps (a b : Net) : Bool :=
  b.containsAddr a.addr || b.containsAddr a.lastAddr ||
    a.containsAddr b.addr || a.containsAddr b.lastAddr

/-- `network.subnets(new_prefix=p)`: the `2^(p - plen)` sub-networks of prefix
length `p`, enumerated in address order. -/
def subnetsList (n : Net) (p : Nat) : List Net :=
  (List.range (2 ^ (p - n.plen))).map
    (fun i => ⟨n.addr + i * 2 ^ (Net.maxPrefixLen - p), p⟩)

/-- The `all(not subnet.overlaps(x) for x in reserved)` test of `find_subnet`. -/
def goodAt (reserved : List Net) (s : Net) : Bool :=
  reserved.all (fun r => ! Net.overlaps s r)

/-- `find_subnet(network, reserved)` from the source:
for `prefix_len in range(network.prefixlen+1, network.max_prefixlen-1)`,
for `subnet in network.subnets(new_prefix=prefix_len)`, return the first
subnet that overlaps no reserved entry; `None` if the loops finish. -/
def find_subnet (network : Net) (reserved : List Net) : Option Net :=
  (List.range' (network.plen + 1) (Net.maxPrefixLen - 1 - (network.plen + 1))).findSome?
    (fun p => (subnetsList network p).find? (goodAt reserved))

/-- `IPv4Network.__getitem__` for a non-negative index:
`address = network_address + n; if address > broadcast_address: raise IndexError`. -/
def pyNetGetitem (n : Net) (i : Nat) : Except Err Nat :=
  let address := n.addr + i
  if n.lastAddr < address then .error .indexError else .ok address

/-- Fuel-driven loop computing the number of trailing zero bits of `n`
(the value of `(~n & (n-1)).bit_length()` in Python for `n > 0`; `n` itself is
always enough fuel). -/
def tzcGo : Nat → Nat → Nat
  | 0, _ => 0
  | fuel + 1, n => if n % 2 = 0 then tzcGo fuel (n / 2) + 1 else 0

/-- Trailing zero bits of a positive number. -/
def trailingZeroCount (n : Nat) : Nat := tzcGo n n

/-- `ipaddress._count_righthand_zero_bits(number, bits)`:
`bits` if `number == 0`, else `min(bits, (~number & (number-1)).bit_length())`. -/
def countRighthandZeroBits (number bits : Nat) : Nat :=
  if number = 0 then bits else min bits (trailingZeroCount number)

/-- `ipaddress._ALL_ONES` for IPv4. -/
def allOnes32 : Nat := 2 ^ 32 - 1

/-- Fuel-driven bit length (`int.bit_length()` in Python; the number itself
is always enough fuel). -/
def bitLenGo : Nat → Nat → Nat
  | 0, _ => 0
  | fuel + 1, n => if n = 0 then 0 else bitLenGo fuel (n / 2) + 1

/-- Bit length of a natural number. -/
def bitLen (n : Nat) : Nat := bitLenGo n n

/-- The `nbits` chosen by one iteration of `summarize_address_range`:
`min(_count_righthand_zero_bits(first, 32), (last - first + 1).bit_length() - 1)`. -/
def nbitsFor (first last : Nat) : Nat :=
  min (countRighthandZeroBits first 32) (bitLen (last - first + 1) - 1)

/-- The `while first_int <= last_int` loop of
`ipaddress.summarize_address_range`, fuel-driven (`last + 1 - first` is always
enough fuel): emit the block `first/(32-nbits)`, advance `first` by `2^nbits`,
and stop after emitting a block ending at the all-ones address. -/
def summarizeGo : Nat → Nat → Nat → List Net
  | 0, _, _ => []
  | fuel + 1, first, last =>
    if first ≤ last then
      if first + 2 ^ nbitsFor first last - 1 = allOnes32 then
        [⟨first, 32 - nbitsFor first last⟩]
      else
        ⟨first, 32 - nbitsFor first last⟩ ::
          summarizeGo fuel (first + 2 ^ nbitsFor first last) last
    else []

/-- `ipaddress.summarize_address_range(first, last)` for IPv4 addresses given
as integers with `first ≤ last` (on `last < first` the Python function raises
`ValueError`, which the callers below model separately). -/
def summarize_address_range (first last : Nat) : List Net :=
  summarizeGo (last + 1 - first) first last

/-- Python `\s` whitespace (the characters `str.strip()` removes, ASCII). -/
def pyIsSpace (c : Char) : Bool :=
  c = ' ' || c = '\t' || c = '\n' || c = '\r' || c = '\x0b' || c = '\x0c'

/-- Python `line.rstrip()` on raw characters. -/
def rstripChars (l : List Char) : List Char :=
  (l.reverse.dropWhile pyIsSpace).reverse

/-- Python `line.rstrip()`. -/
def rstrip (s : String) : String := ⟨rstripChars s.data⟩

/-- Python `line.strip()` on raw characters. -/
def stripChars (l : List Char) : List Char :=
  (rstripChars l).dropWhile pyIsSpace

/-- Worker for `splitWs`. -/
def splitWsGo : List Char → List Char → List String
  | [], acc => if acc.isEmpty then [] else [⟨acc.reverse⟩]
  | c :: rest, acc =>
    if pyIsSpace c then
      if acc.isEmpty then splitWsGo rest [] else ⟨acc.reverse⟩ :: splitWsGo rest []
    else splitWsGo rest (c :: acc)

/-- Python `str.split()` with no argument: split on whitespace runs,
discarding empty fields. -/
def splitWs (s : String) : List String := splitWsGo s.data []

/-- Worker for `splitOnChar`. -/
def splitOnCharGo (sep : Char) : List Char → List Char → List String
  | [], acc => [⟨acc.reverse⟩]
  | c :: rest, acc =>
    if c = sep then ⟨acc.reverse⟩ :: splitOnCharGo sep rest []
    else splitOnCharGo sep rest (c :: acc)

/-- Python `str.split(sep)` for a single-character separator (keeps empty
fields, `""` splits to `[""]`). -/
def splitOnChar (sep : Char) (s : String) : List String := splitOnCharGo sep s.data []

/-- Python `str.strip(chars)` for an explicit character set. -/
def stripSet (set : List Char) (l : List Char) : List Char :=
  ((l.dropWhile (· ∈ set)).reverse.dropWhile (· ∈ set)).reverse

/-- Worker for `removeAll` (fuel-driven; the list length is enough fuel). -/
def removeAllGo (pat : List Char) : Nat → List Char → List Char
  | 0, l => l
  | _ + 1, [] => []
  | fuel + 1, c :: rest =>
    if pat ≠ [] ∧ pat.isPrefixOf (c :: rest) then
      removeAllGo pat fuel ((c :: rest).drop pat.length)
    else c :: removeAllGo pat fuel rest

/-- Python `str.replace(pat, "")` for a non-empty pattern: remove all
non-overlapping occurrences, scanning left to right. -/
def removeAll (pat : List Char) (l : List Char) : List Char := removeAllGo pat l.length l

/-- `ipaddress.IPv4Address._parse_octet`: ASCII digits only, at most three
characters, no leading zero unless the octet is exactly `0`, value at most
255. -/
def parseOctet (s : String) : Option Nat :=
  let cs := s.data
  if cs.isEmpty then none
  else if ¬ cs.all Char.isDigit then none
  else if 3 < cs.length then none
  else if 1 < cs.length ∧ cs.head? = some '0' then none
  else
    let v := cs.foldl (fun acc c => acc * 10 + (c.toNat - 48)) 0
    if v ≤ 255 then some v else none

/-- `ipaddress.IPv4Address._ip_int_from_string`: dotted quad of exactly four
octets. -/
def parseIPv4 (s : String) : Option Nat :=
  match (splitOnChar '.' s).mapM parseOctet with
  | some [a, b, c, d] => some (((a * 256 + b) * 256 + c) * 256 + d)
  | _ => none

/-- Value of one digit character in the given base. -/
def digitVal (base : Nat) (c : Char) : Option Nat :=
  let v :=
    if c.isDigit then some (c.toNat - 48)
    else if 'a' ≤ c ∧ c ≤ 'z' then some (c.toNat - 87)
    else if 'A' ≤ c ∧ c ≤ 'Z' then some (c.toNat - 55)
    else none
  match v with
  | some v => if v < base then some v else none
  | none => none

/-- Digit-run parser for Python `int(s, base)`: base digits with single
underscores allowed only between digits. -/
def pyDigitsGo (base : Nat) : List Char → Bool → Nat → Option Nat
  | [], afterDigit, acc => if afterDigit then some acc else none
  | c :: rest, afterDigit, acc =>
    if c = '_' then
      if afterDigit then
        match rest with
        | d :: _ =>
          if (digitVal base d).isSome then pyDigitsGo base rest false acc else none
        | [] => none
      else none
    else
      match digitVal base c with
      | some v => pyDigitsGo base rest true (acc * base + v)
      | none => none

/-- Python `int(s, base)` for bases 10 and 16: optional surrounding
whitespace, optional sign, an optional `0x`/`0X` prefix when the base is 16,
then digits with single underscores between digits. -/
def pyIntRadix (base : Nat) (s : String) : Option Int :=
  let cs := stripChars s.data
  let signed : Bool × List Char :=
    match cs with
    | '+' :: rest => (false, rest)
    | '-' :: rest => (true, rest)
    | _ => (false, cs)
  let body :=
    if base = 16 then
      match signed.2 with
      | '0' :: x :: rest =>
        if x = 'x' ∨ x = 'X' then
          match rest with
          | '_' :: d :: tl => if (digitVal 16 d).isSome then d :: tl else signed.2
          | _ => rest
        else signed.2
      | _ => signed.2
    else signed.2
  if base = 16 ∧ body = [] ∧ signed.2 ≠ [] then none
  else
    match pyDigitsGo base body false 0 with
    | some n => some (if signed.1 then -(Int.ofNat n) else Int.ofNat n)
    | none => none

/-- Python `int(s, 10)` as used by `parse_vmx`. -/
def pyInt (s : String) : Option Int := pyIntRadix 10 s

/-- `uuid.UUID(hex)`: drop `urn:` and `uuid:` occurrences, strip surrounding
braces, drop dashes, require exactly 32 remaining characters, and read them as
a base-16 integer in `[0, 2^128)`. -/
def pyUUID (s : String) : Option Nat :=
  let r1 := removeAll "urn:".data s.data
  let r2 := removeAll "uuid:".data r1
  let r3 := stripSet ['\x7b', '\x7d'] r2
  let r4 := removeAll ['-'] r3
  if r4.length ≠ 32 then none
  else
    match pyIntRadix 16 ⟨r4⟩ with
    | some i => if 0 ≤ i ∧ i < (2 : Int) ^ 128 then some i.toNat else none
    | none => none

/-- A typed `parse_vmx` value. -/
inductive Value where
  | bool (b : Bool)
  | int (i : Int)
  | uuid (u : Nat)
  | str (s : String)
deriving DecidableEq

/-- A `parse_vmx` entry: a top-level scalar or a section dictionary. -/
inductive Entry where
  | scalar (v : Value)
  | sec (m : List (String × Value))
deriving DecidableEq

/-- Target mapping of `parse_vmx` (`defaultdict(dict)` in the source). -/
abbrev VmxSections := List (String × Entry)

/-- Decomposition of the `parse_vmx` line regex
`((section)\.|)(key) = "(value)"` anchored at both ends: the line must end in
a quote, the value is the non-empty quote-free run before it, preceded by the
literal ` = "`; the part before that is either `section.key` (section runs to
the first dot and is dot-free, key non-empty and space-free) or, failing
that, a bare non-empty space-free key. -/
def matchVmxLine (line : String) : Option (Option String × String × String) :=
  match line.data.reverse with
  | '"' :: revRest =>
    let revValue := revRest.takeWhile (fun c => c != '"')
    let value : List Char := revValue.reverse
    if value.isEmpty then none
    else
      match revRest.drop revValue.length with
      | '"' :: ' ' :: '=' :: ' ' :: revP =>
        let p := revP.reverse
        let secPart := p.takeWhile (fun c => c != '.')
        match p.drop secPart.length with
        | '.' :: keyChars =>
          if ¬ keyChars.isEmpty ∧ keyChars.all (fun c => c != ' ') then
            some (some ⟨secPart⟩, ⟨keyChars⟩, ⟨value⟩)
          else if ¬ p.isEmpty ∧ p.all (fun c => c != ' ') then
            some (none, ⟨p⟩, ⟨value⟩)
          else none
        | _ =>
          if ¬ p.isEmpty ∧ p.all (fun c => c != ' ') then
            some (none, ⟨p⟩, ⟨value⟩)
          else none
      | _ => none
  | _ => none

/-- One typed `parse_vmx` value, following the source's priority chain:
literal `TRUE`/`FALSE` first; then, under the `uuid` section with
`parse_uuid` enabled, `uuid.UUID(value.replace(" ", ""))` whose failure
raises `ValueError`; then `int(value, 10)`; else the raw string. -/
def typeVmxValue (parseUuid : Bool) (sect : Option String) (v : String) : Except Err Value :=
  if v = "TRUE" then .ok (.bool true)
  else if v = "FALSE" then .ok (.bool false)
  else if sect = some "uuid" ∧ parseUuid = true then
    match pyUUID ⟨removeAll [' '] v.data⟩ with
    | some u => .ok (.uuid u)
    | none => .error .valueError
  else
    match pyInt v with
    | some n => .ok (.int n)
    | none => .ok (.str v)

/-- Record one parsed value: at top level a plain assignment
(`sections[key] = value`); inside a section `sections[section][key] = value`,
which raises `TypeError` when `sections[section]` already holds a scalar. -/
def vmxInsert (st : VmxSections) (sect : Option String) (key : String) (v : Value) :
    Except Err VmxSections :=
  match sect with
  | none => .ok (setA key (.scalar v) st)
  | some s =>
    match lookupA s st with
    | none => .ok (setA s (.sec [(key, v)]) st)
    | some (.sec m) => .ok (setA s (.sec (setA key v m)) st)
    | some (.scalar _) => .error .typeError

/-- One line of `parse_vmx`: skip non-matching lines, otherwise type the
value and record it. -/
def parseVmxStep (parseUuid : Bool) (st : VmxSections) (line : String) :
    Except Err VmxSections :=
  match matchVmxLine line with
  | none => .ok st
  | some (sect, key, v) => (typeVmxValue parseUuid sect v).bind (vmxInsert st sect key)

/-- `parse_vmx(stream, parse_uuid=...)`: fold the line parser over the input
lines (lines are given without trailing newlines). -/
def parse_vmx (parseUuid : Bool) (lines : List String) : Except Err VmxSections :=
  lines.foldlM (parseVmxStep parseUuid) []

/-- Lower-case a string (Python `str.lower()` on ASCII). -/
def lowerStr (s : String) : String := ⟨s.data.map Char.toLower⟩

/-- A value in the `parse_networking` result: `yes`/`no` booleans, raw
strings, the derived network object, or Python `None` (stored by the
orchestrator under `network_fixed` when `find_subnet` finds nothing). -/
inductive NVal where
  | bool (b : Bool)
  | str (s : String)
  | net (n : Net)
  | pyNone
deriving DecidableEq

/-- The `parse_networking` result type: network identifier to attribute map. -/
abbrev NetworksMap := List (String × List (String × NVal))

/-- Decomposition of the `parse_networking` regex
`^answer VNET_(num)_(key) (value)$`: the literal `answer VNET_`, a non-empty
digit run, `_`, a non-empty space-free key, one space, then the rest of the
line as the value (possibly empty). -/
def matchAnswerLine (line : String) : Option (String × String × String) :=
  let cs := line.data
  if "answer VNET_".data.isPrefixOf cs then
    let rest := cs.drop 12
    let digits := rest.takeWhile Char.isDigit
    if digits.isEmpty then none
    else
      match rest.drop digits.length with
      | '_' :: rest2 =>
        let key := rest2.takeWhile (fun c => c != ' ')
        if key.isEmpty then none
        else
          match rest2.drop key.length with
          | ' ' :: value => some (⟨digits⟩, ⟨key⟩, ⟨value⟩)
          | _ => none
      | _ => none
  else none

/-- Typing of one `parse_networking` value: literal `yes` is true, literal
`no` is false, anything else stays the raw string. -/
def answerValue (v : String) : NVal :=
  if v = "yes" then .bool true else if v = "no" then .bool false else .str v

/-- One line of `parse_networking`: `ret["vmnet" + num][key.lower()] = value`;
non-matching lines are skipped. -/
def parseNetworkingStep (st : NetworksMap) (line : String) : NetworksMap :=
  match matchAnswerLine line with
  | none => st
  | some (num, key, v) =>
    let vmnet := "vmnet" ++ num
    let info := (lookupA vmnet st).getD []
    setA vmnet (setA (lowerStr key) (answerValue v) info) st

/-- `ipaddress._prefix_from_ip_int`: the mask integer must be all ones above
its trailing zeroes; returns the prefix length. -/
def maskIntToLen (m : Nat) : Option Nat :=
  let tz := countRighthandZeroBits m 32
  let pl := 32 - tz
  if m >>> tz = 2 ^ pl - 1 then some pl else none

/-- `ipaddress._make_netmask` for string arguments: an ASCII digit string is
a prefix length in `[0, 32]`; otherwise the string must be a dotted quad that
is a valid netmask or hostmask. -/
def makeNetmaskStr (s : String) : Option Nat :=
  let cs := s.data
  if ¬ cs.isEmpty ∧ cs.all Char.isDigit then
    let v := cs.foldl (fun acc c => acc * 10 + (c.toNat - 48)) 0
    if v ≤ 32 then some v else none
  else
    match parseIPv4 s with
    | none => none
    | some m =>
      match maskIntToLen m with
      | some p => some p
      | none => maskIntToLen (m ^^^ (2 ^ 32 - 1))

/-- `ipaddress._make_netmask` over parsed `networking` values: Python
booleans are the integer prefix lengths 0/1, strings as `makeNetmaskStr`. -/
def makeNetmaskVal : NVal → Option Nat
  | .bool b => some (cond b 1 0)
  | .str s => makeNetmaskStr s
  | _ => none

/-- `ipaddress.IPv4Address` over parsed `networking` values: Python booleans
are the integers 0/1, strings are dotted quads. -/
def addrIntVal : NVal → Option Nat
  | .bool b => some (cond b 1 0)
  | .str s => parseIPv4 s
  | _ => none

/-- `ipaddress.ip_network((addr, mask))` with the default `strict=True`:
`ValueError` when the address, the mask, or the host-bits check fails. -/
def pyIpNetworkPair (a m : NVal) : Except Err Net :=
  match addrIntVal a with
  | none => .error .valueError
  | some ai =>
    match makeNetmaskVal m with
    | none => .error .valueError
    | some p =>
      if ai % 2 ^ (32 - p) = 0 then .ok ⟨ai, p⟩ else .error .valueError

/-- `ipaddress.ip_network(x)` for a single string with an optional `/len` or
`/mask` suffix, `strict=True`. -/
def pyIpNetworkStr (s : String) : Except Err Net :=
  match splitOnChar '/' s with
  | [a] =>
    match parseIPv4 a with
    | some ai => .ok ⟨ai, 32⟩
    | none => .error .valueError
  | [a, m] =>
    match parseIPv4 a with
    | none => .error .valueError
    | some ai =>
      match makeNetmaskStr m with
      | none => .error .valueError
      | some p => if ai % 2 ^ (32 - p) = 0 then .ok ⟨ai, p⟩ else .error .valueError
  | _ => .error .valueError

/-- The post-processing loop of `parse_networking`: for every network whose
mapping has both `hostonly_netmask` and `hostonly_subnet`, attach
`network = ip_network((subnet, netmask))`; a failed combination raises. -/
def attachNetwork (info : List (String × NVal)) : Except Err (List (String × NVal)) :=
  match lookupA "hostonly_netmask" info, lookupA "hostonly_subnet" info with
  | some mv, some sv =>
    match pyIpNetworkPair sv mv with
    | .ok n => .ok (setA "network" (.net n) info)
    | .error e => .error e
  | _, _ => .ok info

/-- `parse_networking(stream)`: fold the line parser, then attach derived
network objects. -/
def parse_networking (lines : List String) : Except Err NetworksMap :=
  mapME (fun kv => (attachNetwork kv.2).map (fun i => (kv.1, i)))
    (lines.foldl parseNetworkingStep [])

/-- `parse_dhcpd_conf` data for the (only handled) `subnet` section:
the declared network, the reserved set, and the optional domain name. -/
structure SubnetInfo where
  network : Net
  reserved : List Net
  domain : Option String
deriving DecidableEq

/-- Running state of `parse_dhcpd_conf`: the current section name and the
parsed `subnet` section, if any. -/
structure DState where
  sect : Option String
  subnet : Option SubnetInfo
deriving DecidableEq

/-- Require at least one whitespace character, then skip the run (the `\s+`
pieces of the section regex; the following tokens never start with
whitespace, so maximal munch is exact). -/
def wsThen : List Char → Option (List Char)
  | [] => none
  | c :: rest => if pyIsSpace c then some (rest.dropWhile pyIsSpace) else none

/-- The `parse_dhcpd_conf` section-start regex
`^\s*subnet\s+([0-9.]+)\s+netmask\s+([0-9.]+)\s+{\s*` as a prefix match
(`re.match`: anything may follow the opening brace). -/
def matchSubnetLine (l : List Char) : Option (String × String) :=
  let r0 := l.dropWhile pyIsSpace
  if "subnet".data.isPrefixOf r0 then
    match wsThen (r0.drop 6) with
    | none => none
    | some r1 =>
      let netCs := r1.takeWhile (fun c => c.isDigit || c == '.')
      if netCs.isEmpty then none
      else
        match wsThen (r1.drop netCs.length) with
        | none => none
        | some r2 =>
          if "netmask".data.isPrefixOf r2 then
            match wsThen (r2.drop 7) with
            | none => none
            | some r3 =>
              let maskCs := r3.takeWhile (fun c => c.isDigit || c == '.')
              if maskCs.isEmpty then none
              else
                match wsThen (r3.drop maskCs.length) with
                | none => none
                | some r4 =>
                  match r4 with
                  | '\x7b' :: _ => some (⟨netCs⟩, ⟨maskCs⟩)
                  | _ => none
          else none
  else none

/-- The statement regex `^\s*[^;]+\s*;\s*$` on an rstripped line: exactly one
semicolon, it is the last character, and at least one character precedes it. -/
def reLineMatch (l : List Char) : Bool :=
  match l.reverse with
  | ';' :: rest => (! rest.isEmpty) && rest.all (fun c => c != ';')
  | _ => false

/-- The section-end regex `^\s*}\s*$` on an rstripped line. -/
def reEndMatch (l : List Char) : Bool :=
  l.dropWhile pyIsSpace == ['\x7d']

/-- `line.strip().rstrip(";").split()` from the statement handler. -/
def stripSemiParts (l : List Char) : List String :=
  splitWsGo (((stripChars l).reverse.dropWhile (fun c => c = ';')).reverse) []

/-- The statement keywords whose addresses are reserved
(`broadcast-address`, `domain-name-servers`, `netbios-name-servers`,
`routers`). -/
def reservedOptionKeys : List String :=
  ["broadcast-address", "domain-name-servers", "netbios-name-servers", "routers"]

/-- One line of `parse_dhcpd_conf`: section start, statement, or section end.
Inside a `subnet` section, `range` statements reserve the covering block set
via `summarize_address_range` (raising `ValueError` when the range is
reversed or an address is invalid, `IndexError` when arguments are missing),
the four reserved `option` keywords reserve one single-address network per
listed address, `option domain-name` stores the quote-stripped name, and
anything else is ignored. -/
def parseDhcpdStep (st : DState) (line0 : String) : Except Err DState :=
  let l := rstripChars line0.data
  match st.sect with
  | none =>
    match matchSubnetLine l with
    | some (netStr, maskStr) =>
      match pyIpNetworkPair (.str netStr) (.str maskStr) with
      | .ok n => .ok ⟨some "subnet", some ⟨n, [], none⟩⟩
      | .error e => .error e
    | none => .ok st
  | some sname =>
    if reLineMatch l then
      if sname = "subnet" then
        match st.subnet with
        | none => .error (.keyError "subnet")
        | some info =>
          match stripSemiParts l with
          | [] => .error .indexError
          | p0 :: restParts =>
            if p0 = "range" then
              match restParts with
              | [] => .error .indexError
              | [a] =>
                match parseIPv4 a with
                | none => .error .valueError
                | some _ => .error .indexError
              | a :: b :: _ =>
                match parseIPv4 a with
                | none => .error .valueError
                | some fa =>
                  match parseIPv4 b with
                  | none => .error .valueError
                  | some fb =>
                    if fb < fa then .error .valueError
                    else .ok ⟨st.sect, some { info with
                      reserved := info.reserved ++ summarize_address_range fa fb }⟩
            else if p0 = "option" then
              match restParts with
              | [] => .error .indexError
              | o1 :: rest2 =>
                if o1 ∈ reservedOptionKeys then
                  match mapME pyIpNetworkStr rest2 with
                  | .ok ns => .ok ⟨st.sect, some { info with
                      reserved := info.reserved ++ ns }⟩
                  | .error e => .error e
                else if o1 = "domain-name" then
                  match rest2 with
                  | d :: _ => .ok ⟨st.sect, some { info with
                      domain := some ⟨stripSet ['"'] d.data⟩ }⟩
                  | [] => .error .indexError
                else .ok st
            else .ok st
      else .ok st
    else if reEndMatch l then .ok ⟨none, st.subnet⟩
    else .ok st

/-- `parse_dhcpd_conf(stream)`: fold the line parser; the result is the
parsed `subnet` entry (if a subnet section was seen). -/
def parse_dhcpd_conf (lines : List String) : Except Err (Option SubnetInfo) :=
  (lines.foldlM parseDhcpdStep ⟨none, none⟩).map (fun st => st.subnet)

/-- `NETWORKS`: the connection types mapped to host networks. -/
def NETWORKS : List (String × String) := [("hostonly", "vmnet1"), ("nat", "vmnet8")]

/-- One iteration of the network loop in `main`: read `info['dhcp']`
unconditionally (`KeyError` when the key is missing), skip non-DHCP
networks, read and parse the network's `dhcpd.conf` (a missing lease file is
fatal), store the effective domain, compare the declared network with the
lease file's one — the warning call in the mismatch branch references the
undefined name `net` and therefore raises `NameError` — and store the
`find_subnet` result under `network_fixed`. -/
def processNetworkStep (leases : List (String × List String)) (st : NetworksMap)
    (entry : String × List (String × NVal)) : Except Err NetworksMap :=
  let vmnet := entry.1
  let info := entry.2
  match lookupA "dhcp" info with
  | none => .error (.keyError "dhcp")
  | some dhcp =>
    if dhcp ≠ .bool true then .ok st
    else
      match lookupA vmnet leases with
      | none => .error (.ioError vmnet)
      | some leaseLines =>
        match parse_dhcpd_conf leaseLines with
        | .error e => .error e
        | .ok none => .error (.keyError "subnet")
        | .ok (some sub) =>
          let info1 := setA "domain" (.str (sub.domain.getD "localdomain")) info
          match lookupA "network" info1 with
          | none => .error (.keyError "network")
          | some declared =>
            if declared ≠ .net sub.network then .error .nameError
            else
              let fixedVal : NVal :=
                match find_subnet sub.network sub.reserved with
                | some n => .net n
                | none => .pyNone
              .ok (setA vmnet (setA "network_fixed" fixedVal info1) st)

/-- The `for vmnet, info in networks.items()` loop of `main`. -/
def processNetworks (leases : List (String × List String)) (networks : NetworksMap) :
    Except Err NetworksMap :=
  networks.foldlM (processNetworkStep leases) networks

/-- A parsed virtual machine: the stem of its `.vmx` file name and the result
of `parse_vmx(vmx, parse_uuid=True)`. -/
structure VM where
  stem : String
  info : VmxSections
deriving DecidableEq

/-- `VirtualMachine.hostname`: the `displayName` entry when present, else the
file stem. -/
def VM.hostname (vm : VM) : Entry :=
  (lookupA "displayName" vm.info).getD (.scalar (.str vm.stem))

/-- Read every discovered `.vmx` file into a `VM`. -/
def readVMs (files : List (String × List String)) : Except Err (List VM) :=
  mapME (fun f => (parse_vmx true f.2).map (fun i => VM.mk f.1 i)) files

/-- Python comparison classes of hostname values: booleans and integers
compare with each other, strings with strings, UUIDs with UUIDs, and
dictionaries not at all. -/
inductive CmpClass where
  | numCls
  | strCls
  | uuidCls
  | dictCls
deriving DecidableEq

/-- The comparison class of a hostname entry. -/
def Entry.cmpClass : Entry → CmpClass
  | .scalar (.bool _) => .numCls
  | .scalar (.int _) => .numCls
  | .scalar (.uuid _) => .uuidCls
  | .scalar (.str _) => .strCls
  | .sec _ => .dictCls

/-- Numeric value of a bool/int entry. -/
def Entry.numVal : Entry → Int
  | .scalar (.bool b) => cond b 1 0
  | .scalar (.int i) => i
  | _ => 0

/-- Lexicographic comparison of character lists by code point (Python `<`
on strings). -/
def strLtB : List Char → List Char → Bool
  | [], [] => false
  | [], _ :: _ => true
  | _ :: _, [] => false
  | a :: as, b :: bs =>
    if a.toNat < b.toNat then true
    else if b.toNat < a.toNat then false
    else strLtB as bs

/-- Python `<` between two hostname values of the same comparison class. -/
def entryLt (a b : Entry) : Bool :=
  match a, b with
  | .scalar (.str x), .scalar (.str y) => strLtB x.data y.data
  | .scalar (.uuid x), .scalar (.uuid y) => decide (x < y)
  | x, y => decide (Entry.numVal x < Entry.numVal y)

/-- Stable insertion into an ascending list: the new element goes after every
element it is not strictly below. -/
def insertStable {α : Type} (lt : α → α → Bool) (x : α) : List α → List α
  | [] => [x]
  | y :: ys => if lt x y then x :: y :: ys else y :: insertStable lt x ys

/-- Stable ascending sort (the guarantee of Python `sorted`). -/
def sortStable {α : Type} (lt : α → α → Bool) (l : List α) : List α :=
  l.foldl (fun acc x => insertStable lt x acc) []

/-- Python `sorted(vms, key=lambda x: x.hostname)`: lists of at most one
element need no comparison; otherwise all hostnames must share a comparable
class, and mixing classes (or dictionary hostnames) raises `TypeError`. -/
def pySortVMs (vms : List VM) : Except Err (List VM) :=
  match vms with
  | [] => .ok []
  | [v] => .ok [v]
  | v :: rest =>
    if rest.all (fun w => w.hostname.cmpClass == v.hostname.cmpClass) ∧
        v.hostname.cmpClass ≠ .dictCls then
      .ok (sortStable (fun a b => entryLt a.hostname b.hostname) (v :: rest))
    else .error .typeError

/-- Python `sorted(d.items())` for a string-keyed dict (keys are unique, so
only the keys are compared). -/
def sortByKey {α : Type} (l : List (String × α)) : List (String × α) :=
  sortStable (fun a b => strLtB a.1.data b.1.data) l

/-- Python `str.startswith`. -/
def startsWithStr (p s : String) : Bool := p.data.isPrefixOf s.data

/-- The assigned address of one interface: a proper address from the free
block, or — when `network_fixed` holds a raw string — the character Python
string indexing returns. -/
inductive IpVal where
  | addr (a : Nat)
  | chr (c : Char)
deriving DecidableEq

/-- One `dhcpd_static_block` call, before rendering. -/
structure OutputRec where
  host : Entry
  mac : String
  ip : IpVal
  conn : String
  dev : String
  netName : String
deriving DecidableEq

/-- One hex digit character, lower case. -/
def toHexChar (n : Nat) : Char :=
  if n < 10 then Char.ofNat (48 + n) else Char.ofNat (87 + n)

/-- A UUID rendered canonically: 32 lower-case hex digits in 8-4-4-4-12
groups. -/
def uuidCanonical (u : Nat) : String :=
  let h := (List.range 32).map (fun i => toHexChar (u / 16 ^ (31 - i) % 16))
  ⟨h.take 8 ++ '-' :: (h.drop 8).take 4 ++ '-' :: (h.drop 12).take 4 ++
    '-' :: (h.drop 16).take 4 ++ '-' :: h.drop 20⟩

/-- Python `str()` of a typed `parse_vmx` value. -/
def pyStrValue : Value → String
  | .bool true => "True"
  | .bool false => "False"
  | .int i => toString i
  | .uuid u => uuidCanonical u
  | .str s => s

/-- Python `repr()` of a typed value (simplified: strings are wrapped in
single quotes without escaping; only reachable through dictionary-valued
hostnames). -/
def pyReprValue : Value → String
  | .str s => "\x27" ++ s ++ "\x27"
  | v => pyStrValue v

/-- Python `str()` of a hostname entry (dictionaries via their repr). -/
def pyStrEntry : Entry → String
  | .scalar v => pyStrValue v
  | .sec m => "\x7b" ++
      String.intercalate ", " (m.map (fun kv => "\x27" ++ kv.1 ++ "\x27: " ++ pyReprValue kv.2))
      ++ "\x7d"

/-- Dotted-quad rendering of an IPv4 address integer. -/
def ipNatToStr (n : Nat) : String :=
  toString (n / 2 ^ 24 % 256) ++ "." ++ toString (n / 2 ^ 16 % 256) ++ "." ++
    toString (n / 2 ^ 8 % 256) ++ "." ++ toString (n % 256)

/-- Rendering of an assigned address. -/
def pyStrIpVal : IpVal → String
  | .addr a => ipNatToStr a
  | .chr c => ⟨[c]⟩

/-- `VirtualMachine.dhcpd_static_block` instantiating `TEMPLATE_DHCPD_HOST`
(`extra` has the fixed keys `conn`, `dev`, `net`, already in sorted order). -/
def renderBlock (r : OutputRec) : String :=
  let h := pyStrEntry r.host
  "# " ++ h ++ " conn=" ++ r.conn ++ " dev=" ++ r.dev ++ " net=" ++ r.netName ++
    "\nhost " ++ h ++ " \x7b\n    hardware ethernet " ++ r.mac ++
    ";\n    fixed-address " ++ pyStrIpVal r.ip ++ ";\n\x7d\n"

/-- The per-network accumulated blocks (`dhcp_confs = defaultdict(list)`). -/
abbrev DhcpConfs := List (String × List OutputRec)

/-- One `(section, info)` item of one VM inside the allocation loop of
`main`: skip non-`ethernet` sections; a scalar under an `ethernet` key has no
`.get` (`AttributeError`); skip unknown connection types; look up the MAC
(`KeyError` / `AttributeError` on a non-string), then
`networks[vmnet]["network_fixed"][len(dhcp_confs[vmnet])]` — `KeyError` on
missing keys, indexing on the stored value (a network yields an address and
`IndexError` past capacity, a raw string yields a character, `None` and
booleans raise `TypeError`) — and append the rendered record. -/
def allocStep (networks : NetworksMap) (vm : VM) (st : DhcpConfs) :
    String × Entry → Except Err DhcpConfs
  | (sname, ent) =>
  if ¬ startsWithStr "ethernet" sname then .ok st
  else
    match ent with
    | .scalar _ => .error .attributeError
    | .sec m =>
      match lookupA "connectionType" m with
      | some (.str conn) =>
        match lookupA conn NETWORKS with
        | none => .ok st
        | some vmnet =>
          match lookupA "generatedAddress" m with
          | none => .error (.keyError "generatedAddress")
          | some (.str mac) =>
            let cur := (lookupA vmnet st).getD []
            match lookupA vmnet networks with
            | none => .error (.keyError vmnet)
            | some ninfo =>
              match lookupA "network_fixed" ninfo with
              | none => .error (.keyError "network_fixed")
              | some (.net n) =>
                match pyNetGetitem n cur.length with
                | .error e => .error e
                | .ok a =>
                  .ok (setA vmnet
                    (cur ++ [⟨vm.hostname, lowerStr mac, .addr a, conn, sname, vmnet⟩]) st)
              | some (.str s) =>
                match s.data.get? cur.length with
                | some c =>
                  .ok (setA vmnet
                    (cur ++ [⟨vm.hostname, lowerStr mac, .chr c, conn, sname, vmnet⟩]) st)
                | none => .error .indexError
              | some _ => .error .typeError
          | some _ => .error .attributeError
      | _ => .ok st

/-- The inner `for section, info in sorted(vm.info.items())` loop. -/
def allocVM (networks : NetworksMap) (st : DhcpConfs) (vm : VM) : Except Err DhcpConfs :=
  (sortByKey vm.info).foldlM (allocStep networks vm) st

/-- The whole allocation loop: VMs in ascending hostname order, sections in
ascending name order, starting from an empty `dhcp_confs`. -/
def allocRun (networks : NetworksMap) (vms : List VM) : Except Err DhcpConfs :=
  match pySortVMs vms with
  | .error e => .error e
  | .ok sortedVMs => sortedVMs.foldlM (allocVM networks) []

/-- The print loop of `main`: one group per network in sorted order, each
headed by `## {timestamp} {vmnet} fixed-address configs ##` and followed by
the rendered blocks; the result is the list of `print` payloads. -/
def flattenWith (t : String) (gs : DhcpConfs) : List String :=
  gs.flatMap (fun g =>
    ("## " ++ t ++ " " ++ g.1 ++ " fixed-address configs ##\n") :: g.2.map renderBlock)

/-- Everything `main` computes before the timestamp is read: parse the
networking file, process each network's lease config, read the VM
descriptors, run the allocation loop, and sort the groups. -/
def coreRun (networkingLines : List String) (leases : List (String × List String))
    (vmxFiles : List (String × List String)) : Except Err DhcpConfs :=
  match parse_networking networkingLines with
  | .error e => .error e
  | .ok networks0 =>
    match processNetworks leases networks0 with
    | .error e => .error e
    | .ok networks =>
      match readVMs vmxFiles with
      | .error e => .error e
      | .ok vms =>
        match allocRun networks vms with
        | .error e => .error e
        | .ok confs => .ok (sortByKey confs)

/-- The full pipeline of `main` on already-read input files, with the
timestamp (`datetime.now().isoformat(timespec="seconds")`) supplied as an
input: the list of printed strings. -/
def fullRun (networkingLines : List String) (leases : List (String × List String))
    (vmxFiles : List (String × List String)) (now : String) : Except Err (List String) :=
  (coreRun networkingLines leases vmxFiles).map (flattenWith now)

/-- The allocated free block of a host network, as the allocation loop reads
it: the `network_fixed` entry, when it holds a network object. -/
def netFixedLookup (networks : NetworksMap) (vmnet : String) : Option Net :=
  match lookupA vmnet networks with
  | none => none
  | some info =>
    match lookupA "network_fixed" info with
    | some (.net n) => some n
    | _ => none

/-- Is this value a network object or `None`? -/
def isNetOrNone : NVal → Bool
  | .net _ => true
  | .pyNone => true
  | _ => false

/-- Every `network_fixed` entry holds a network object or `None` — what the
network loop actually stores there (an `answer VNET_N_NETWORK_FIXED` line in
the networking file could inject a raw string instead). -/
def NetworkFixedWF (networks : NetworksMap) : Prop :=
  ∀ e ∈ networks, ∀ kv ∈ e.2, kv.1 = "network_fixed" → isNetOrNone kv.2 = true

/-- Invariant of the allocation loop: each network's accumulated records
carry the consecutive addresses of its allocated block, starting at the
block's network address. -/
def AllocInv (networks : NetworksMap) (st : DhcpConfs) : Prop :=
  ∀ vmnet recs, lookupA vmnet st = some recs →
    ∃ n, netFixedLookup networks vmnet = some n ∧
      recs.map OutputRec.ip = (List.range recs.length).map (fun i => IpVal.addr (n.addr + i))

/-- Example networking file. -/
def exNwLines : List String :=
  ["answer VNET_8_DHCP yes", "answer VNET_8_HOSTONLY_SUBNET 192.168.1.0",
   "answer VNET_8_HOSTONLY_NETMASK 255.255.255.0", "answer VNET_8_NAT yes",
   "answer VNET_1_DHCP no"]

/-- Example `vmnet8` lease config. -/
def exLease8 : List String :=
  ["subnet 192.168.1.0 netmask 255.255.255.0 \x7b",
   "    range 192.168.1.128 192.168.1.254;",
   "    option routers 192.168.1.2;",
   "\x7d"]

/-- Example lease file set. -/
def exLeases : List (String × List String) := [("vmnet8", exLease8)]

/-- Example VM descriptor: `alpha`. -/
def exVmxAlpha : List String :=
  ["displayName = \"alpha\"", "ethernet0.connectionType = \"nat\"",
   "ethernet0.generatedAddress = \"00:0C:29:AA:BB:CC\""]

/-- Example VM descriptor: `beta`. -/
def exVmxBeta : List String :=
  ["displayName = \"beta\"", "ethernet0.connectionType = \"nat\"",
   "ethernet0.generatedAddress = \"00:0C:29:DD:EE:FF\""]

/-- Example VM descriptor files, deliberately discovered out of name order. -/
def exVmxFiles : List (String × List String) :=
  [("beta", exVmxBeta), ("alpha", exVmxAlpha)]

/-- The parsed example networking file. -/
def exParsedNw : NetworksMap :=
  [("vmnet8",
    [("dhcp", .bool true),
     ("hostonly_subnet", .str "192.168.1.0"),
     ("hostonly_netmask", .str "255.255.255.0"),
     ("nat", .bool true),
     ("network", .net ⟨3232235776, 24⟩)]),
   ("vmnet1", [("dhcp", .bool false)])]

/-- Networks map with an allocated free block `192.168.1.64/26` on the nat
network, as in the spec's two-VM example. -/
def exAllocNetworks : NetworksMap :=
  [("vmnet8", [("network_fixed", .net ⟨3232235840, 26⟩)])]

/-- The parsed `alpha` VM of the two-VM example. -/
def exVMAlpha : VM :=
  ⟨"alpha", [("displayName", .scalar (.str "alpha")),
    ("ethernet0", .sec [("connectionType", .str "nat"),
      ("generatedAddress", .str "00:0C:29:AA:BB:CC")])]⟩

/-- The parsed `beta` VM of the two-VM example. -/
def exVMBeta : VM :=
  ⟨"beta", [("displayName", .scalar (.str "beta")),
    ("ethernet0", .sec [("connectionType", .str "nat"),
      ("generatedAddress", .str "00:0C:29:DD:EE:FF")])]⟩

/-- The allocation result of the two-VM example: alpha (sorted first) gets
`192.168.1.64`, beta gets `192.168.1.65`. -/
def exAllocConfs : DhcpConfs :=
  [("vmnet8",
    [⟨.scalar (.str "alpha"), "00:0c:29:aa:bb:cc", .addr 3232235840, "nat", "ethernet0", "vmnet8"⟩,
     ⟨.scalar (.str "beta"), "00:0c:29:dd:ee:ff", .addr 3232235841, "nat", "ethernet0", "vmnet8"⟩])]

/-- A valid allocation candidate for `find_subnet`: a sub-network of the parent
whose prefix length lies between `parent-prefix+1` and `max_prefixlen - 2`
inclusive, aligned to its own size and contained in the parent's range. -/
def Candidate (network c : Net) : Prop :=
  network.plen + 1 ≤ c.plen ∧ c.plen ≤ Net.maxPrefixLen - 2 ∧
    c.addr % c.size = 0 ∧ network.addr ≤ c.addr ∧
    c.addr + c.size ≤ network.addr + network.size

/-- What claim C1 states about `find_subnet network reserved`: a returned
sub-network is a candidate overlapping no reserved entry, of minimal prefix
length and minimal network address among same-length candidates; an empty
result means every candidate overlaps some reserved entry. -/
def FindSubnetSpec (network : Net) (reserved : List Net) : Prop :=
  (∀ s, find_subnet network reserved = some s →
      Candidate network s ∧ (∀ r ∈ reserved, Net.overlaps s r = false) ∧
      ∀ c, Candidate network c → (∀ r ∈ reserved, Net.overlaps c r = false) →
        s.plen ≤ c.plen ∧ (s.plen = c.plen → s.addr ≤ c.addr)) ∧
  (find_subnet network reserved = none →
      ∀ c, Candidate network c → ∃ r ∈ reserved, Net.overlaps c r = true)

end VMF

namespace VMF

/-- Helper: a successful `find?` splits the list into a prefix of failures,
the hit, and a tail. -/
theorem find?_first {α : Type} {p : α → Bool} :
    ∀ {l : List α} {x : α}, l.find? p = some x →
      p x = true ∧ ∃ l₁ l₂, l = l₁ ++ x :: l₂ ∧ ∀ y ∈ l₁, p y = false := by
  intro l
  induction l with
  | nil => intro x h; simp at h
  | cons a l ih =>
    intro x h
    by_cases ha : p a = true
    · rw [List.find?_cons_of_pos _ ha] at h
      cases h
      exact ⟨ha, [], l, rfl, by simp⟩
    · rw [List.find?_cons_of_neg _ ha] at h
      obtain ⟨hx, l₁, l₂, heq, hall⟩ := ih h
      refine ⟨hx, a :: l₁, l₂, by simp [heq], ?_⟩
      intro y hy
      rcases List.mem_cons.mp hy with rfl | hy'
      · exact Bool.eq_false_iff.mpr (fun hc => ha hc)
      · exact hall y hy'

/-- Helper: a successful `findSome?` over `range' s n` identifies the first
index where the function fires. -/
theorem findSome?_range'_some {β : Type} {g : Nat → Option β} :
    ∀ {n s : Nat} {x : β}, (List.range' s n).findSome? g = some x →
      ∃ p, s ≤ p ∧ p < s + n ∧ g p = some x ∧ ∀ q, s ≤ q → q < p → g q = none := by
  intro n
  induction n with
  | zero => intro s x h; simp at h
  | succ n ih =>
    intro s x h
    rw [List.range'_succ, List.findSome?_cons] at h
    cases hg : g s with
    | some b =>
      rw [hg] at h
      cases h
      exact ⟨s, Nat.le_refl _, by omega, hg, fun q hq1 hq2 => absurd hq1 (by omega)⟩
    | none =>
      rw [hg] at h
      obtain ⟨p, hp1, hp2, hp3, hp4⟩ := ih h
      refine ⟨p, by omega, by omega, hp3, ?_⟩
      intro q hq1 hq2
      rcases Nat.eq_or_lt_of_le hq1 with rfl | hlt
      · exact hg
      · exact hp4 q hlt hq2

/-- Helper: a failed `findSome?` over `range' s n` fails at every index. -/
theorem findSome?_range'_none {β : Type} {g : Nat → Option β} :
    ∀ {n s : Nat}, (List.range' s n).findSome? g = none →
      ∀ p, s ≤ p → p < s + n → g p = none := by
  intro n
  induction n with
  | zero => intro s _ p hp1 hp2; omega
  | succ n ih =>
    intro s h p hp1 hp2
    rw [List.range'_succ, List.findSome?_cons] at h
    cases hg : g s with
    | some b => rw [hg] at h; cases h
    | none =>
      rw [hg] at h
      rcases Nat.eq_or_lt_of_le hp1 with rfl | hlt
      · exact hg
      · exact ih h p hlt (by omega)

/-- Characterization of `subnets(new_prefix=p)`: exactly the aligned prefix-`p`
blocks lying inside the parent (for an aligned parent and `plen < p ≤ 32`). -/
theorem mem_subnetsList_iff {network : Net} {p : Nat} {c : Net}
    (halign : network.addr % 2 ^ (Net.maxPrefixLen - network.plen) = 0)
    (h1 : network.plen < p) (h2 : p ≤ Net.maxPrefixLen) :
    c ∈ subnetsList network p ↔
      (c.plen = p ∧ c.addr % 2 ^ (Net.maxPrefixLen - p) = 0 ∧
        network.addr ≤ c.addr ∧
        c.addr + 2 ^ (Net.maxPrefixLen - p) ≤
          network.addr + 2 ^ (Net.maxPrefixLen - network.plen)) := by
  have hdvdpow : (2 : Nat) ^ (Net.maxPrefixLen - p) ∣ 2 ^ (Net.maxPrefixLen - network.plen) :=
    Nat.pow_dvd_pow 2 (Nat.sub_le_sub_left (Nat.le_of_lt h1) _)
  have hdvdaddr : (2 : Nat) ^ (Net.maxPrefixLen - p) ∣ network.addr :=
    dvd_trans hdvdpow (Nat.dvd_of_mod_eq_zero halign)
  have hexp : (2 : Nat) ^ (p - network.plen) * 2 ^ (Net.maxPrefixLen - p) =
      2 ^ (Net.maxPrefixLen - network.plen) := by
    rw [← pow_add]
    congr 1
    unfold Net.maxPrefixLen at *
    omega
  have hmpos : 0 < (2 : Nat) ^ (Net.maxPrefixLen - p) := Nat.pos_pow_of_pos _ (by decide)
  constructor
  · intro hmem
    obtain ⟨i, hi, rfl⟩ := List.mem_map.mp hmem
    rw [List.mem_range] at hi
    refine ⟨rfl, ?_, Nat.le_add_right _ _, ?_⟩
    · rw [Nat.add_mul_mod_self_right]
      exact Nat.dvd_iff_mod_eq_zero.mp hdvdaddr
    · calc network.addr + i * 2 ^ (Net.maxPrefixLen - p) + 2 ^ (Net.maxPrefixLen - p)
          = network.addr + (i + 1) * 2 ^ (Net.maxPrefixLen - p) := by ring
      _ ≤ network.addr + 2 ^ (p - network.plen) * 2 ^ (Net.maxPrefixLen - p) := by
          have : i + 1 ≤ 2 ^ (p - network.plen) := hi
          exact Nat.add_le_add_left (Nat.mul_le_mul_right _ this) _
      _ = network.addr + 2 ^ (Net.maxPrefixLen - network.plen) := by rw [hexp]
  · rintro ⟨hplen, hcalign, hle, hub⟩
    have hdvdc : (2 : Nat) ^ (Net.maxPrefixLen - p) ∣ c.addr :=
      Nat.dvd_of_mod_eq_zero hcalign
    have hdvdd : (2 : Nat) ^ (Net.maxPrefixLen - p) ∣ (c.addr - network.addr) :=
      Nat.dvd_sub' hdvdc hdvdaddr
    refine List.mem_map.mpr
      ⟨(c.addr - network.addr) / 2 ^ (Net.maxPrefixLen - p), ?_, ?_⟩
    · rw [List.mem_range]
      have hdm : (c.addr - network.addr) / 2 ^ (Net.maxPrefixLen - p) *
          2 ^ (Net.maxPrefixLen - p) = c.addr - network.addr :=
        Nat.div_mul_cancel hdvdd
      have hlt : (c.addr - network.addr) / 2 ^ (Net.maxPrefixLen - p) + 1 ≤
          2 ^ (p - network.plen) := by
        have hmul : ((c.addr - network.addr) / 2 ^ (Net.maxPrefixLen - p) + 1) *
            2 ^ (Net.maxPrefixLen - p) ≤
            2 ^ (p - network.plen) * 2 ^ (Net.maxPrefixLen - p) := by
          rw [Nat.add_mul, one_mul, hdm, hexp]
          omega
        exact Nat.le_of_mul_le_mul_right hmul hmpos
      omega
    · have hdm : (c.addr - network.addr) / 2 ^ (Net.maxPrefixLen - p) *
          2 ^ (Net.maxPrefixLen - p) = c.addr - network.addr :=
        Nat.div_mul_cancel hdvdd
      have haddr : network.addr +
          (c.addr - network.addr) / 2 ^ (Net.maxPrefixLen - p) *
            2 ^ (Net.maxPrefixLen - p) = c.addr := by
        rw [hdm]
        omega
      show (⟨network.addr + (c.addr - network.addr) / 2 ^ (Net.maxPrefixLen - p) *
          2 ^ (Net.maxPrefixLen - p), p⟩ : Net) = c
      rw [haddr, ← hplen]

/-- The non-overlap test of `find_subnet`, in propositional form. -/
theorem goodAt_iff {reserved : List Net} {s : Net} :
    goodAt reserved s = true ↔ ∀ r ∈ reserved, Net.overlaps s r = false := by
  unfold goodAt
  rw [List.all_eq_true]
  constructor
  · intro h r hr
    simpa using h r hr
  · intro h r hr
    simp [h r hr]

/-- Failing the non-overlap test means some reserved entry overlaps. -/
theorem goodAt_false_iff {reserved : List Net} {s : Net} :
    goodAt reserved s = false ↔ ∃ r ∈ reserved, Net.overlaps s r = true := by
  unfold goodAt
  rw [List.all_eq_false]
  constructor
  · rintro ⟨r, hr, hb⟩
    exact ⟨r, hr, by simpa using hb⟩
  · rintro ⟨r, hr, hb⟩
    exact ⟨r, hr, by simp [hb]⟩

/-- Claim C1: `find_subnet(network, reserved)` either returns a sub-network of
the parent overlapping no reserved entry — the one of smallest prefix length,
and of lowest network address among candidates of that prefix length, over all
candidates with prefix length between `parent-prefix+1` and `max_prefixlen-2`
inclusive — or returns empty when every candidate at every tested prefix
length overlaps some reserved entry. -/
theorem find_subnet_optimal (network : Net) (reserved : List Net)
    (halign : network.addr % network.size = 0) :
    FindSubnetSpec network reserved := by
  have halign' : network.addr % 2 ^ (Net.maxPrefixLen - network.plen) = 0 := halign
  constructor
  · intro s hs
    unfold find_subnet at hs
    obtain ⟨p0, hp0a, hp0b, hp0g, hp0prev⟩ := findSome?_range'_some hs
    have hp0le : p0 ≤ Net.maxPrefixLen - 2 := by
      unfold Net.maxPrefixLen at *
      omega
    obtain ⟨hgood, l₁, l₂, heq, hprevfail⟩ := find?_first hp0g
    have hsmem : s ∈ subnetsList network p0 := List.mem_of_find?_eq_some hp0g
    have hscand := (mem_subnetsList_iff halign' (by omega)
      (by unfold Net.maxPrefixLen at *; omega)).mp hsmem
    obtain ⟨hsplen, hsalign, hsle, hsub⟩ := hscand
    have hCand : Candidate network s := by
      refine ⟨by omega, by omega, ?_, hsle, ?_⟩
      · show s.addr % 2 ^ (Net.maxPrefixLen - s.plen) = 0
        rw [hsplen]
        exact hsalign
      · show s.addr + 2 ^ (Net.maxPrefixLen - s.plen) ≤
          network.addr + 2 ^ (Net.maxPrefixLen - network.plen)
        rw [hsplen]
        exact hsub
    refine ⟨hCand, goodAt_iff.mp hgood, ?_⟩
    intro c hc hcnov
    obtain ⟨hc1, hc2, hc3, hc4, hc5⟩ := hc
    have hcgood : goodAt reserved c = true := goodAt_iff.mpr hcnov
    have hcmem : c ∈ subnetsList network c.plen := by
      refine (mem_subnetsList_iff halign' (by omega)
        (by unfold Net.maxPrefixLen at *; omega)).mpr ⟨rfl, hc3, hc4, hc5⟩
    by_cases hlt : c.plen < p0
    · exfalso
      have hnone : (subnetsList network c.plen).find? (goodAt reserved) = none :=
        hp0prev c.plen (by omega) hlt
      exact (List.find?_eq_none.mp hnone c hcmem) hcgood
    · have hple : s.plen ≤ c.plen := by omega
      refine ⟨hple, ?_⟩
      intro heqp
      have hceq : c.plen = p0 := by omega
      rw [hceq] at hcmem
      -- identify indices in the enumeration of sub-networks of prefix p0
      obtain ⟨k, hk, hfk⟩ := List.mem_map.mp hcmem
      rw [List.mem_range] at hk
      have hlen : (subnetsList network p0).length = 2 ^ (p0 - network.plen) := by
        simp [subnetsList]
      have hgetk : (subnetsList network p0)[k]? =
          some ⟨network.addr + k * 2 ^ (Net.maxPrefixLen - p0), p0⟩ := by
        unfold subnetsList
        rw [List.getElem?_map, List.getElem?_range hk]
        rfl
      have hgeti : (subnetsList network p0)[l₁.length]? = some s := by
        rw [heq, List.getElem?_append_right (Nat.le_refl _)]
        simp
      have hilt : l₁.length < 2 ^ (p0 - network.plen) := by
        have : l₁.length < (subnetsList network p0).length := by
          rw [heq]
          simp
        omega
      have hgeti' : (subnetsList network p0)[l₁.length]? =
          some ⟨network.addr + l₁.length * 2 ^ (Net.maxPrefixLen - p0), p0⟩ := by
        unfold subnetsList
        rw [List.getElem?_map, List.getElem?_range hilt]
        rfl
      have hseq : s = ⟨network.addr + l₁.length * 2 ^ (Net.maxPrefixLen - p0), p0⟩ := by
        rw [hgeti] at hgeti'
        exact Option.some.inj hgeti'
      have hik : l₁.length ≤ k := by
        by_contra hik
        push_neg at hik
        have htake : l₁ = (subnetsList network p0).take l₁.length := by
          rw [heq, List.take_left]
        have hmem₁ : (⟨network.addr + k * 2 ^ (Net.maxPrefixLen - p0), p0⟩ : Net) ∈ l₁ := by
          rw [htake]
          exact List.getElem?_mem (by rw [List.getElem?_take_of_lt hik, hgetk])
        have := hprevfail _ hmem₁
        rw [hfk] at this
        rw [this] at hcgood
        cases hcgood
      rw [hseq, ← hfk]
      show network.addr + l₁.length * 2 ^ (Net.maxPrefixLen - p0) ≤
        network.addr + k * 2 ^ (Net.maxPrefixLen - p0)
      exact Nat.add_le_add_left (Nat.mul_le_mul_right _ hik) _
  · intro hnone c hc
    unfold find_subnet at hnone
    obtain ⟨hc1, hc2, hc3, hc4, hc5⟩ := hc
    have hcmem : c ∈ subnetsList network c.plen := by
      refine (mem_subnetsList_iff halign' (by omega)
        (by unfold Net.maxPrefixLen at *; omega)).mpr ⟨rfl, hc3, hc4, hc5⟩
    have hg : (subnetsList network c.plen).find? (goodAt reserved) = none :=
      findSome?_range'_none hnone c.plen (by omega)
        (by unfold Net.maxPrefixLen at *; omega)
    have hnot := List.find?_eq_none.mp hg c hcmem
    have hfalse : goodAt reserved c = false := by
      cases hb : goodAt reserved c
      · rfl
      · exact absurd hb hnot
    exact goodAt_false_iff.mp hfalse

/-- Witness for C1: the canonical VMWare /24 with the upper /25 and two
single-address reservations; the hypotheses are discharged concretely. -/
theorem find_subnet_optimal_witness :
    (Net.mk 3232235776 24).addr % (Net.mk 3232235776 24).size = 0 ∧
      FindSubnetSpec (Net.mk 3232235776 24)
        [Net.mk 3232235904 25, Net.mk 3232235778 32, Net.mk 3232236031 32] :=
  ⟨by decide, find_subnet_optimal _ _ (by decide)⟩

/-- Claim C9: for an IPv4 parent whose prefix length is at least
`max_prefixlen - 2` (a /30, /31 or /32 parent), `find_subnet` returns empty
regardless of the reserved set — even an empty one — because the tested
prefix-length range `range(prefixlen+1, max_prefixlen-1)` is empty. -/
theorem find_subnet_small_parent_none (network : Net) (reserved : List Net)
    (h : Net.maxPrefixLen - 2 ≤ network.plen) :
    find_subnet network reserved = none := by
  unfold find_subnet
  have hz : Net.maxPrefixLen - 1 - (network.plen + 1) = 0 := by
    unfold Net.maxPrefixLen at *
    omega
  rw [hz]
  rfl

/-- Witness for C9: a concrete /30 parent (192.168.0.0/30) with an empty
reserved set is refused. -/
theorem find_subnet_small_parent_none_witness :
    Net.maxPrefixLen - 2 ≤ (Net.mk 0xC0A80000 30).plen ∧
      find_subnet (Net.mk 0xC0A80000 30) [] = none :=
  ⟨by decide, find_subnet_small_parent_none _ _ (by decide)⟩

/-- Claim C5: the address taken from the allocated free block at the current
usage-counter offset (`networks[vmnet]["network_fixed"][len(dhcp_confs[vmnet])]`)
is a hard `IndexError` exactly when the counter has reached or exceeded the
capacity of the block, and otherwise is `network_address + counter` — the
program fails rather than silently reusing or wrapping an address. -/
theorem pyNetGetitem_exhaustion (n : Net) (i : Nat) :
    (pyNetGetitem n i = .error .indexError ↔ n.size ≤ i) ∧
      (pyNetGetitem n i = .ok (n.addr + i) ↔ i < n.size) := by
  have hpos : 0 < n.size := Nat.pos_pow_of_pos _ (by decide)
  unfold pyNetGetitem Net.lastAddr
  constructor
  · constructor
    · intro h
      by_cases hc : n.addr + n.size - 1 < n.addr + i
      · omega
      · simp [hc] at h
    · intro h
      have hc : n.addr + n.size - 1 < n.addr + i := by omega
      simp [hc]
  · constructor
    · intro h
      by_cases hc : n.addr + n.size - 1 < n.addr + i
      · simp [hc] at h
      · omega
    · intro h
      have hc : ¬ (n.addr + n.size - 1 < n.addr + i) := by omega
      simp [hc]

/-- Helper: a successful association-list lookup is a member. -/
theorem lookupA_mem {α : Type} {k : String} {v : α} :
    ∀ {l : List (String × α)}, lookupA k l = some v → (k, v) ∈ l := by
  intro l
  induction l with
  | nil => intro h; simp [lookupA] at h
  | cons kv rest ih =>
    obtain ⟨k', v'⟩ := kv
    intro h
    by_cases he : k' = k
    · subst he
      simp [lookupA] at h
      subst h
      exact List.mem_cons_self _ _
    · rw [lookupA, if_neg he] at h
      exact List.mem_cons_of_mem _ (ih h)

/-- Helper: looking up the key just set. -/
theorem lookupA_setA_self {α : Type} (k : String) (v : α) :
    ∀ (l : List (String × α)), lookupA k (setA k v l) = some v := by
  intro l
  induction l with
  | nil => simp [setA, lookupA]
  | cons kv rest ih =>
    obtain ⟨k', v'⟩ := kv
    by_cases he : k' = k
    · subst he
      simp [setA, lookupA]
    · simp [setA, lookupA, he, ih]

/-- Helper: setting one key leaves other lookups unchanged. -/
theorem lookupA_setA_other {α : Type} {k w : String} (hne : w ≠ k) (v : α) :
    ∀ (l : List (String × α)), lookupA w (setA k v l) = lookupA w l := by
  intro l
  induction l with
  | nil =>
    show lookupA w [(k, v)] = lookupA w []
    simp only [lookupA]
    rw [if_neg (fun h => hne h.symm)]
  | cons kv rest ih =>
    obtain ⟨k', v'⟩ := kv
    by_cases he : k' = k
    · subst he
      rw [setA, if_pos rfl, lookupA, lookupA,
        if_neg (fun h => hne h.symm), if_neg (fun h => hne h.symm)]
    · rw [setA, if_neg he, lookupA, lookupA]
      by_cases hw : k' = w
      · rw [if_pos hw, if_pos hw]
      · rw [if_neg hw, if_neg hw, ih]

/-- Helper: a fold in the `Except` monad fails whenever some element always
fails. -/
theorem foldlM_except_error_of_mem {α β : Type} (f : β → α → Except Err β) :
    ∀ (l : List α) (st : β) (x : α), x ∈ l →
      (∀ s, ∃ e, f s x = Except.error e) →
      ∃ e, l.foldlM f st = Except.error e := by
  intro l
  induction l with
  | nil => intro st x hx; cases hx
  | cons a l ih =>
    intro st x hx hf
    rcases List.mem_cons.mp hx with rfl | hx'
    · obtain ⟨e, he⟩ := hf st
      refine ⟨e, ?_⟩
      show (f st x >>= fun s' => List.foldlM f s' l) = Except.error e
      rw [he]
      rfl
    · cases hfa : f st a with
      | error e =>
        refine ⟨e, ?_⟩
        show (f st a >>= fun s' => List.foldlM f s' l) = Except.error e
        rw [hfa]
        rfl
      | ok s' =>
        obtain ⟨e, he⟩ := ih s' x hx' hf
        refine ⟨e, ?_⟩
        show (f st a >>= fun s1 => List.foldlM f s1 l) = Except.error e
        rw [hfa]
        exact he

/-- Helper: an invariant preserved by every successful step is preserved by a
successful fold in the `Except` monad. -/
theorem foldlM_except_inv {α β : Type} (P : β → Prop) (f : β → α → Except Err β)
    (hstep : ∀ s a s', P s → f s a = .ok s' → P s') :
    ∀ (l : List α) (s s' : β), P s → l.foldlM f s = .ok s' → P s' := by
  intro l
  induction l with
  | nil =>
    intro s s' hP h
    have h' : (Except.ok s : Except Err β) = Except.ok s' := h
    injection h' with h''
    exact h'' ▸ hP
  | cons a l ih =>
    intro s s' hP h
    have hx : (f s a >>= fun s1 => List.foldlM f s1 l) = Except.ok s' := h
    cases hfa : f s a with
    | error e =>
      rw [hfa] at hx
      have hx' : (Except.error e : Except Err β) = Except.ok s' := hx
      injection hx'
    | ok s1 =>
      rw [hfa] at hx
      have hx' : List.foldlM f s1 l = Except.ok s' := hx
      exact ih s1 s' (hstep s a s1 hP hfa) hx'

/-- Helper: every element of a successful `mapME` image comes from a source
element. -/
theorem mapME_mem {α β : Type} (f : α → Except Err β) :
    ∀ (l : List α) (r : List β), mapME f l = .ok r → ∀ x ∈ r, ∃ a ∈ l, f a = .ok x := by
  intro l
  induction l with
  | nil =>
    intro r h x hx
    simp [mapME] at h
    subst h
    cases hx
  | cons a l ih =>
    intro r h x hx
    unfold mapME at h
    cases hfa : f a with
    | error e =>
      rw [hfa] at h
      cases h
    | ok b =>
      rw [hfa] at h
      cases hml : mapME f l with
      | error e =>
        rw [hml] at h
        cases h
      | ok bs =>
        rw [hml] at h
        cases h
        rcases List.mem_cons.mp hx with rfl | hx'
        · exact ⟨a, List.mem_cons_self _ _, hfa⟩
        · obtain ⟨a', ha', hfa'⟩ := ih bs hml x hx'
          exact ⟨a', List.mem_cons_of_mem _ ha', hfa'⟩

/-- Helper: `bitLenGo` is positive on positive input with enough fuel. -/
theorem bitLenGo_pos : ∀ (fuel n : Nat), 0 < n → n ≤ fuel → 0 < bitLenGo fuel n := by
  intro fuel
  cases fuel with
  | zero => intro n h1 h2; omega
  | succ fuel =>
    intro n h1 _
    unfold bitLenGo
    rw [if_neg (by omega)]
    omega

/-- Helper: `2^(bit_length(m) - 1) ≤ m` for positive `m`, fuelled version. -/
theorem two_pow_bitLenGo_pred_le : ∀ (fuel m : Nat), 0 < m → m ≤ fuel →
    2 ^ (bitLenGo fuel m - 1) ≤ m := by
  intro fuel
  induction fuel with
  | zero => intro m h1 h2; omega
  | succ fuel ih =>
    intro m h1 h2
    unfold bitLenGo
    rw [if_neg (by omega)]
    by_cases hm2 : m / 2 = 0
    · have hm1 : m = 1 := by omega
      subst hm1
      have : bitLenGo fuel 0 = 0 := by
        cases fuel with
        | zero => rfl
        | succ fuel => simp [bitLenGo]
      rw [hm2, this]
      decide
    · have hle : m / 2 ≤ fuel := by omega
      have hih := ih (m / 2) (by omega) hle
      have hpos := bitLenGo_pos fuel (m / 2) (by omega) hle
      have hexp : 2 ^ (bitLenGo fuel (m / 2) + 1 - 1) =
          2 * 2 ^ (bitLenGo fuel (m / 2) - 1) := by
        rw [Nat.add_sub_cancel, ← pow_succ']
        congr 1
        omega
      rw [hexp]
      omega

/-- Helper: `2^(bit_length(m) - 1) ≤ m` for positive `m`. -/
theorem two_pow_bitLen_pred_le (m : Nat) (hm : 0 < m) : 2 ^ (bitLen m - 1) ≤ m :=
  two_pow_bitLenGo_pred_le m m hm (Nat.le_refl m)

/-- Helper: the loop of `summarize_address_range` covers exactly the
inclusive interval `[first, last]`, given enough fuel. -/
theorem summarizeGo_covers : ∀ (fuel first last : Nat),
    last + 1 - first ≤ fuel → last < 2 ^ 32 →
    ∀ a, (∃ n ∈ summarizeGo fuel first last, n.addr ≤ a ∧ a ≤ n.lastAddr) ↔
      (first ≤ a ∧ a ≤ last) := by
  intro fuel
  induction fuel with
  | zero =>
    intro first last hf _ a
    constructor
    · rintro ⟨n, hn, _⟩
      simp [summarizeGo] at hn
    · intro h
      omega
  | succ fuel ih =>
    intro first last hf hlt a
    by_cases hfl : first ≤ last
    · have hnb32 : nbitsFor first last ≤ 32 := by
        have h1 : countRighthandZeroBits first 32 ≤ 32 := by
          unfold countRighthandZeroBits
          split
          · exact le_refl _
          · exact Nat.min_le_left _ _
        calc nbitsFor first last ≤ countRighthandZeroBits first 32 := Nat.min_le_left _ _
          _ ≤ 32 := h1
      have hszm : 2 ^ nbitsFor first last ≤ last - first + 1 := by
        have hs1 : 2 ^ (bitLen (last - first + 1) - 1) ≤ last - first + 1 :=
          two_pow_bitLen_pred_le _ (by omega)
        calc (2:Nat) ^ nbitsFor first last ≤ 2 ^ (bitLen (last - first + 1) - 1) :=
            Nat.pow_le_pow_right (by decide) (Nat.min_le_right _ _)
          _ ≤ last - first + 1 := hs1
      have hpos : 0 < 2 ^ nbitsFor first last := Nat.pos_pow_of_pos _ (by decide)
      have hexp : Net.maxPrefixLen - (32 - nbitsFor first last) = nbitsFor first last := by
        unfold Net.maxPrefixLen
        omega
      have hlastAddr : (⟨first, 32 - nbitsFor first last⟩ : Net).lastAddr =
          first + 2 ^ nbitsFor first last - 1 := by
        unfold Net.lastAddr Net.size
        rw [hexp]
      by_cases hbrk : first + 2 ^ nbitsFor first last - 1 = allOnes32
      · have hres : summarizeGo (fuel + 1) first last = [⟨first, 32 - nbitsFor first last⟩] := by
          simp only [summarizeGo]
          rw [if_pos hfl, if_pos hbrk]
        rw [hres]
        unfold allOnes32 at hbrk
        constructor
        · rintro ⟨n, hn, hn1, hn2⟩
          rw [List.mem_singleton] at hn
          subst hn
          rw [hlastAddr] at hn2
          have hn1' : first ≤ a := hn1
          omega
        · intro ⟨ha1, ha2⟩
          refine ⟨⟨first, 32 - nbitsFor first last⟩, List.mem_singleton.mpr rfl, ha1, ?_⟩
          rw [hlastAddr]
          omega
      · have hres : summarizeGo (fuel + 1) first last =
            ⟨first, 32 - nbitsFor first last⟩ ::
              summarizeGo fuel (first + 2 ^ nbitsFor first last) last := by
          simp only [summarizeGo]
          rw [if_pos hfl, if_neg hbrk]
        rw [hres]
        have hfuel' : last + 1 - (first + 2 ^ nbitsFor first last) ≤ fuel := by omega
        have hih := ih (first + 2 ^ nbitsFor first last) last hfuel' hlt a
        constructor
        · rintro ⟨n, hn, hn1, hn2⟩
          rcases List.mem_cons.mp hn with rfl | hmem
          · rw [hlastAddr] at hn2
            have hfirst : (⟨first, 32 - nbitsFor first last⟩ : Net).addr = first := rfl
            rw [hfirst] at hn1
            omega
          · have := hih.mp ⟨n, hmem, hn1, hn2⟩
            omega
        · intro ⟨ha1, ha2⟩
          by_cases hin : a ≤ first + 2 ^ nbitsFor first last - 1
          · refine ⟨⟨first, 32 - nbitsFor first last⟩, List.mem_cons_self _ _, ha1, ?_⟩
            rw [hlastAddr]
            omega
          · obtain ⟨n, hn, h1, h2⟩ := hih.mpr ⟨by omega, ha2⟩
            exact ⟨n, List.mem_cons_of_mem _ hn, h1, h2⟩
    · constructor
      · rintro ⟨n, hn, _⟩
        simp only [summarizeGo] at hn
        rw [if_neg hfl] at hn
        simp at hn
      · intro h
        omega

/-- Claim C2 (code bug): when a DHCP-enabled network's declared network
(192.168.2.0/24 in the networking data) differs from its lease config file's
declared network (192.168.1.0/24), `main` does not merely log a warning —
the `logging.warning` call in the mismatch branch references the undefined
name `net`, so the branch raises `NameError` and processing aborts instead
of continuing with the lease file's network. -/
theorem network_mismatch_raises_nameError :
    processNetworks [("vmnet8", ["subnet 192.168.1.0 netmask 255.255.255.0 \x7b", "\x7d"])]
      [("vmnet8", [("dhcp", .bool true), ("network", .net ⟨3232236032, 24⟩)])] =
      .error .nameError := by decide

/-- Claim C10: the network loop reads `info['dhcp']` unconditionally, so a
parsed network entry without a `dhcp` key makes its loop iteration raise
`KeyError('dhcp')`, and the whole loop fails instead of skipping the network
as dhcp-disabled. -/
theorem missing_dhcp_key_fails (leases : List (String × List String))
    (networks st : NetworksMap) (v : String) (info : List (String × NVal))
    (hmem : (v, info) ∈ networks) (hnokey : lookupA "dhcp" info = none) :
    processNetworkStep leases st (v, info) = .error (.keyError "dhcp") ∧
      ∃ e, processNetworks leases networks = .error e := by
  constructor
  · show processNetworkStep leases st (v, info) = .error (.keyError "dhcp")
    unfold processNetworkStep
    simp only [hnokey]
  · exact foldlM_except_error_of_mem _ networks networks (v, info) hmem
      (fun s => ⟨.keyError "dhcp", by unfold processNetworkStep; simp only [hnokey]⟩)

/-- Witness for C10: a concrete networking entry with no DHCP answer line. -/
theorem missing_dhcp_key_fails_witness :
    processNetworkStep [] [] ("vmnet3", [("nat", NVal.bool true)]) =
        .error (.keyError "dhcp") ∧
      ∃ e, processNetworks [] [("vmnet3", [("nat", NVal.bool true)])] = .error e :=
  missing_dhcp_key_fails [] [("vmnet3", [("nat", NVal.bool true)])] []
    "vmnet3" [("nat", NVal.bool true)] (by decide) (by decide)

/-- Claim C3 counterexample: the full pipeline run twice on unchanged input
files prints different bytes when the clock has moved, because the group
header line embeds `datetime.now()`; output is not byte-identical across
runs. -/
theorem pipeline_output_embeds_timestamp :
    fullRun exNwLines exLeases exVmxFiles "2026-10-12T00:00:00" ≠
      fullRun exNwLines exLeases exVmxFiles "2026-10-12T00:00:01" := by decide

/-- Claim C3 (amended): on unchanged input files and VM ordering the pipeline
is deterministic up to the clock reading — two successful runs print the same
group structure flattened with their respective timestamps, so they differ at
most in the timestamp inside each group header line, and runs observing the
same timestamp are byte-identical. -/
theorem pipeline_deterministic_modulo_timestamp
    (nw : List String) (leases : List (String × List String))
    (vmx : List (String × List String)) (t1 t2 : String) (o1 o2 : List String)
    (h1 : fullRun nw leases vmx t1 = .ok o1)
    (h2 : fullRun nw leases vmx t2 = .ok o2) :
    ∃ gs, o1 = flattenWith t1 gs ∧ o2 = flattenWith t2 gs := by
  unfold fullRun at h1 h2
  cases hc : coreRun nw leases vmx with
  | error e =>
    rw [hc] at h1
    cases h1
  | ok gs =>
    rw [hc] at h1 h2
    have e1 : flattenWith t1 gs = o1 := by
      have h1' : (Except.ok (flattenWith t1 gs) : Except Err (List String)) = .ok o1 := h1
      injection h1'
    have e2 : flattenWith t2 gs = o2 := by
      have h2' : (Except.ok (flattenWith t2 gs) : Except Err (List String)) = .ok o2 := h2
      injection h2'
    exact ⟨gs, e1.symm, e2.symm⟩

/-- Witness for the amended C3: the example run at two timestamps, with the
hypotheses discharged by computation. -/
theorem pipeline_deterministic_modulo_timestamp_witness :
    ∃ gs, ([] : List String) = flattenWith "2026-10-12T00:00:00" gs ∧
      ([] : List String) = flattenWith "2026-10-12T00:00:01" gs :=
  pipeline_deterministic_modulo_timestamp [] [] [] _ _ [] [] (by decide) (by decide)

/-- Claim C4: inside a `subnet` block, a `range <start> <end> ;` statement
whose two addresses parse and satisfy start ≤ end extends the reserved set by
exactly `summarize_address_range(start, end)`, and the union of that block
set covers exactly the inclusive interval `[start, end]`: it contains every
address within the range and no address outside it. -/
theorem range_statement_reserved_covers (x y : String) (first last : Nat)
    (hx : parseIPv4 x = some first) (hy : parseIPv4 y = some last)
    (hle : first ≤ last) (hlt : last < 2 ^ 32) :
    (∀ (info : SubnetInfo) (line : String),
      reLineMatch (rstripChars line.data) = true →
      stripSemiParts (rstripChars line.data) = ["range", x, y] →
      parseDhcpdStep ⟨some "subnet", some info⟩ line =
        .ok ⟨some "subnet", some { info with
          reserved := info.reserved ++ summarize_address_range first last }⟩) ∧
    (∀ a, (∃ n ∈ summarize_address_range first last, n.addr ≤ a ∧ a ≤ n.lastAddr) ↔
      (first ≤ a ∧ a ≤ last)) := by
  constructor
  · intro info line hline hparts
    unfold parseDhcpdStep
    simp only [hline, hparts, hx, hy, if_true, Nat.not_lt.mpr hle, if_false]
  · intro a
    exact summarizeGo_covers (last + 1 - first) first last (Nat.le_refl _) hlt a

/-- Witness for C4: the stock VMWare `range 192.168.1.128 192.168.1.254;`
statement inside a fresh 192.168.1.0/24 subnet block, and coverage of the
address 192.168.1.129. -/
theorem range_statement_reserved_covers_witness :
    parseDhcpdStep ⟨some "subnet", some ⟨⟨3232235776, 24⟩, [], none⟩⟩
        "    range 192.168.1.128 192.168.1.254;" =
      .ok ⟨some "subnet", some ⟨⟨3232235776, 24⟩,
        summarize_address_range 3232235904 3232236030, none⟩⟩ ∧
      (∃ n ∈ summarize_address_range 3232235904 3232236030,
        n.addr ≤ 3232235905 ∧ 3232235905 ≤ n.lastAddr) := by
  have h := range_statement_reserved_covers "192.168.1.128" "192.168.1.254"
    3232235904 3232236030 (by decide) (by decide) (by decide) (by decide)
  constructor
  · have hstep := h.1 ⟨⟨3232235776, 24⟩, [], none⟩ "    range 192.168.1.128 192.168.1.254;"
      (by decide) (by decide)
    simpa using hstep
  · exact (h.2 3232235905).mpr (by decide)

/-- Claim C6 counterexample: the line `uuid.bios = "zz"` matches the
key/value pattern, yet no typed value is recorded for it — `uuid.UUID`
rejects the value and the whole parse raises `ValueError`. -/
theorem parse_vmx_invalid_uuid_fails :
    matchVmxLine "uuid.bios = \"zz\"" = some (some "uuid", "bios", "zz") ∧
      parse_vmx true ["uuid.bios = \"zz\""] = .error .valueError := by decide

/-- Claim C6 (amended): the VM-descriptor parser silently skips every
non-matching line; for each matching line it computes the typed value by the
priority order — literal `TRUE`/`FALSE` become booleans even under the uuid
section; otherwise, under the uuid section with uuid parsing enabled, the
space-stripped value is parsed as a 128-bit UUID and an invalid UUID fails
the whole parse with `ValueError`; otherwise a successful base-10 integer
parse yields an integer; otherwise the raw string is kept — and records it
(recording under a section whose name was previously recorded as a top-level
scalar raises `TypeError`). -/
theorem parse_vmx_typing (pu : Bool) (st : VmxSections) (line : String) :
    (matchVmxLine line = none → parseVmxStep pu st line = .ok st) ∧
    (∀ sect key v, matchVmxLine line = some (sect, key, v) →
      parseVmxStep pu st line = (typeVmxValue pu sect v).bind (vmxInsert st sect key) ∧
      (v = "TRUE" → typeVmxValue pu sect v = .ok (.bool true)) ∧
      (v = "FALSE" → typeVmxValue pu sect v = .ok (.bool false)) ∧
      (v ≠ "TRUE" → v ≠ "FALSE" → sect = some "uuid" → pu = true →
        typeVmxValue pu sect v =
          (match pyUUID ⟨removeAll [' '] v.data⟩ with
            | some u => .ok (.uuid u)
            | none => .error .valueError)) ∧
      (v ≠ "TRUE" → v ≠ "FALSE" → ¬(sect = some "uuid" ∧ pu = true) →
        ∀ i, pyInt v = some i → typeVmxValue pu sect v = .ok (.int i)) ∧
      (v ≠ "TRUE" → v ≠ "FALSE" → ¬(sect = some "uuid" ∧ pu = true) →
        pyInt v = none → typeVmxValue pu sect v = .ok (.str v))) := by
  constructor
  · intro h
    unfold parseVmxStep
    rw [h]
  · intro sect key v h
    refine ⟨?_, ?_, ?_, ?_, ?_, ?_⟩
    · unfold parseVmxStep
      rw [h]
    · intro hv
      subst hv
      rfl
    · intro hv
      subst hv
      rfl
    · intro hvT hvF hsec hpu
      subst hsec
      subst hpu
      unfold typeVmxValue
      rw [if_neg hvT, if_neg hvF, if_pos ⟨rfl, rfl⟩]
    · intro hvT hvF hns i hint
      unfold typeVmxValue
      rw [if_neg hvT, if_neg hvF, if_neg hns, hint]
    · intro hvT hvF hns hint
      unfold typeVmxValue
      rw [if_neg hvT, if_neg hvF, if_neg hns, hint]

/-- Witness for the amended C6: one concrete line per typing priority case,
plus a skipped comment line and a parsed UUID. -/
theorem parse_vmx_typing_witness :
    typeVmxValue true (some "uuid") "TRUE" = .ok (.bool true) ∧
      typeVmxValue true none "FALSE" = .ok (.bool false) ∧
      parseVmxStep true [] "# comment" = .ok [] ∧
      typeVmxValue true none "2048" = .ok (.int 2048) ∧
      typeVmxValue true none "nat" = .ok (.str "nat") ∧
      typeVmxValue true (some "uuid") "de ad be ef de ad be ef-01 23 45 67 89 ab cd ef" =
        .ok (.uuid 295990755083049101696555678564455534063) := by
  refine ⟨?_, ?_, ?_, ?_, ?_, ?_⟩
  · exact ((parse_vmx_typing true [] "uuid.bios = \"TRUE\"").2 (some "uuid") "bios" "TRUE"
      (by decide)).2.1 rfl
  · exact ((parse_vmx_typing true [] "a = \"FALSE\"").2 none "a" "FALSE"
      (by decide)).2.2.1 rfl
  · exact (parse_vmx_typing true [] "# comment").1 (by decide)
  · exact ((parse_vmx_typing true [] "memsize = \"2048\"").2 none "memsize" "2048"
      (by decide)).2.2.2.2.1 (by decide) (by decide) (by simp) 2048 (by decide)
  · exact ((parse_vmx_typing true [] "e = \"nat\"").2 none "e" "nat"
      (by decide)).2.2.2.2.2 (by decide) (by decide) (by simp) (by decide)
  · have h := ((parse_vmx_typing true []
      "uuid.bios = \"de ad be ef de ad be ef-01 23 45 67 89 ab cd ef\"").2
      (some "uuid") "bios" "de ad be ef de ad be ef-01 23 45 67 89 ab cd ef"
      (by decide)).2.2.2.1 (by decide) (by decide) rfl rfl
    rw [h]
    decide

/-- Claim C7 counterexample: two answer lines give the `vmnet8` entry both
the subnet-address key and the netmask key, yet no derived network value is
attached — combining the two raw values is not a valid network and the
post-processing raises `ValueError` instead. -/
theorem parse_networking_attach_failure :
    (["answer VNET_8_HOSTONLY_SUBNET foo", "answer VNET_8_HOSTONLY_NETMASK bar"].foldl
        parseNetworkingStep []) =
      [("vmnet8", [("hostonly_subnet", NVal.str "foo"),
        ("hostonly_netmask", NVal.str "bar")])] ∧
      parse_networking
        ["answer VNET_8_HOSTONLY_SUBNET foo", "answer VNET_8_HOSTONLY_NETMASK bar"] =
        .error .valueError := by decide

/-- Claim C7 (amended): the networking parser maps each
`answer VNET_<N>_<KEY> <value>` line into the `vmnet<N>` entry under the
lower-cased key with exactly three value outcomes (`yes` is true, `no` is
false, anything else stays the raw string) and skips non-matching lines; and
afterwards, in every entry of a successful parse that has both the
subnet-address and the netmask key, a derived network value combining them is
attached — combinations that do not form a valid strict network instead fail
the parse with `ValueError`. -/
theorem parse_networking_spec (st : NetworksMap) (line : String) :
    (matchAnswerLine line = none → parseNetworkingStep st line = st) ∧
    (∀ num key v, matchAnswerLine line = some (num, key, v) →
      parseNetworkingStep st line =
        setA ("vmnet" ++ num)
          (setA (lowerStr key) (answerValue v) ((lookupA ("vmnet" ++ num) st).getD [])) st ∧
      (v = "yes" → answerValue v = .bool true) ∧
      (v = "no" → answerValue v = .bool false) ∧
      (v ≠ "yes" → v ≠ "no" → answerValue v = .str v)) ∧
    (∀ (lines : List String) (ret : NetworksMap) (vmnet : String)
        (info : List (String × NVal)),
      parse_networking lines = .ok ret → (vmnet, info) ∈ ret →
      ∀ mv sv, lookupA "hostonly_netmask" info = some mv →
        lookupA "hostonly_subnet" info = some sv →
        ∃ n, pyIpNetworkPair sv mv = .ok n ∧
          lookupA "network" info = some (.net n)) := by
  refine ⟨?_, ?_, ?_⟩
  · intro h
    unfold parseNetworkingStep
    rw [h]
  · intro num key v h
    refine ⟨?_, ?_, ?_, ?_⟩
    · unfold parseNetworkingStep
      rw [h]
    · intro hv
      subst hv
      rfl
    · intro hv
      subst hv
      rfl
    · intro h1 h2
      unfold answerValue
      rw [if_neg h1, if_neg h2]
  · intro lines ret vmnet info hok hmem mv sv hmv hsv
    unfold parse_networking at hok
    obtain ⟨kv, _, hkv⟩ := mapME_mem _ _ _ hok (vmnet, info) hmem
    cases hat : attachNetwork kv.2 with
    | error e =>
      rw [hat] at hkv
      cases hkv
    | ok i' =>
      rw [hat] at hkv
      have hkv' : (Except.ok (kv.1, i') :
          Except Err (String × List (String × NVal))) = .ok (vmnet, info) := hkv
      injection hkv' with hpair
      have hi : i' = info := congrArg Prod.snd hpair
      rw [hi] at hat
      unfold attachNetwork at hat
      cases hmv0 : lookupA "hostonly_netmask" kv.2 with
      | none =>
        rw [hmv0] at hat
        have hinfo : kv.2 = info := by
          have h0 : (Except.ok kv.2 : Except Err (List (String × NVal))) = .ok info := hat
          injection h0
        rw [hinfo, hmv] at hmv0
        cases hmv0
      | some mv0 =>
        rw [hmv0] at hat
        cases hsv0 : lookupA "hostonly_subnet" kv.2 with
        | none =>
          rw [hsv0] at hat
          have hinfo : kv.2 = info := by
            have h0 : (Except.ok kv.2 : Except Err (List (String × NVal))) = .ok info := hat
            injection h0
          rw [hinfo, hsv] at hsv0
          cases hsv0
        | some sv0 =>
          rw [hsv0] at hat
          have hat' : (match pyIpNetworkPair sv0 mv0 with
              | Except.ok n => Except.ok (setA "network" (NVal.net n) kv.2)
              | Except.error e => (Except.error e : Except Err (List (String × NVal)))) =
              .ok info := hat
          cases hpn : pyIpNetworkPair sv0 mv0 with
          | error e =>
            rw [hpn] at hat'
            cases hat'
          | ok n =>
            rw [hpn] at hat'
            have hinfo : setA "network" (NVal.net n) kv.2 = info := by
              have h0 : (Except.ok (setA "network" (NVal.net n) kv.2) :
                  Except Err (List (String × NVal))) = .ok info := hat'
              injection h0
            have hmv1 : lookupA "hostonly_netmask" info = some mv0 := by
              rw [← hinfo, lookupA_setA_other (by decide)]
              exact hmv0
            have hsv1 : lookupA "hostonly_subnet" info = some sv0 := by
              rw [← hinfo, lookupA_setA_other (by decide)]
              exact hsv0
            have hmveq : mv = mv0 := by
              rw [hmv1] at hmv
              injection hmv with h0
              exact h0.symm
            have hsveq : sv = sv0 := by
              rw [hsv1] at hsv
              injection hsv with h0
              exact h0.symm
            refine ⟨n, ?_, ?_⟩
            · rw [hmveq, hsveq]
              exact hpn
            · rw [← hinfo]
              exact lookupA_setA_self _ _ _

/-- Witness for the amended C7: the three value outcomes on concrete lines, a
skipped line, and the example networking file whose `vmnet8` entry carries
the derived 192.168.1.0/24 network. -/
theorem parse_networking_spec_witness :
    answerValue "yes" = .bool true ∧
      answerValue "no" = .bool false ∧
      answerValue "192.168.1.0" = .str "192.168.1.0" ∧
      parseNetworkingStep [] "# not an answer line" = [] ∧
      (∃ n, pyIpNetworkPair (.str "192.168.1.0") (.str "255.255.255.0") = .ok n ∧
        lookupA "network"
          [("dhcp", NVal.bool true),
           ("hostonly_subnet", NVal.str "192.168.1.0"),
           ("hostonly_netmask", NVal.str "255.255.255.0"),
           ("nat", NVal.bool true),
           ("network", NVal.net ⟨3232235776, 24⟩)] = some (.net n)) := by
  refine ⟨?_, ?_, ?_, ?_, ?_⟩
  · exact (((parse_networking_spec [] "answer VNET_8_DHCP yes").2.1 "8" "DHCP" "yes"
      (by decide)).2.1) rfl
  · exact (((parse_networking_spec [] "answer VNET_1_DHCP no").2.1 "1" "DHCP" "no"
      (by decide)).2.2.1) rfl
  · exact (((parse_networking_spec [] "answer VNET_8_HOSTONLY_SUBNET 192.168.1.0").2.1
      "8" "HOSTONLY_SUBNET" "192.168.1.0" (by decide)).2.2.2) (by decide) (by decide)
  · exact (parse_networking_spec [] "# not an answer line").1 (by decide)
  · exact (parse_networking_spec [] "").2.2 exNwLines exParsedNw "vmnet8" _
      (by decide) (by decide) _ _ (by decide) (by decide)

/-- Helper: one allocation step preserves the consecutive-address invariant
(given well-formed `network_fixed` entries). -/
theorem allocStep_inv (networks : NetworksMap) (hwf : NetworkFixedWF networks)
    (vm : VM) (st st' : DhcpConfs) (item : String × Entry)
    (hP : AllocInv networks st) (h : allocStep networks vm st item = .ok st') :
    AllocInv networks st' := by
  obtain ⟨sname, ent⟩ := item
  simp only [allocStep] at h
  split at h
  · have h' : (Except.ok st : Except Err DhcpConfs) = .ok st' := h
    injection h' with h''
    exact h'' ▸ hP
  · split at h
    · cases h
    · split at h
      · rename_i m conn hconn
        split at h
        · have h' : (Except.ok st : Except Err DhcpConfs) = .ok st' := h
          injection h' with h''
          exact h'' ▸ hP
        · rename_i vmnet hvn
          split at h
          · cases h
          · rename_i mac hmac
            split at h
            · cases h
            · rename_i ninfo hni
              split at h
              · cases h
              · rename_i n hnf
                split at h
                · cases h
                · rename_i a hga
                  have ha : a = n.addr + ((lookupA vmnet st).getD []).length := by
                    unfold pyNetGetitem at hga
                    by_cases hlt : n.lastAddr < n.addr + ((lookupA vmnet st).getD []).length
                    · rw [if_pos hlt] at hga
                      cases hga
                    · rw [if_neg hlt] at hga
                      injection hga with h0
                      exact h0.symm
                  have h' : (Except.ok (setA vmnet (((lookupA vmnet st).getD []) ++
                      [⟨vm.hostname, lowerStr mac, .addr a, conn, sname, vmnet⟩]) st) :
                      Except Err DhcpConfs) = .ok st' := h
                  injection h' with h''
                  subst h''
                  intro w recs hw
                  by_cases hvw : w = vmnet
                  · subst hvw
                    rw [lookupA_setA_self] at hw
                    have hrecs : ((lookupA w st).getD []) ++
                        [⟨vm.hostname, lowerStr mac, .addr a, conn, sname, w⟩] = recs := by
                      injection hw with h0
                    have hnfl : netFixedLookup networks w = some n := by
                      simp [netFixedLookup, hni, hnf]
                    refine ⟨n, hnfl, ?_⟩
                    cases hcur : lookupA w st with
                    | none =>
                      rw [hcur] at hrecs ha
                      subst ha
                      rw [← hrecs]
                      simp [List.range_succ]
                    | some cur0 =>
                      obtain ⟨n0, hn0, hmap⟩ := hP w cur0 hcur
                      have hn0' : n = n0 := by
                        rw [hnfl] at hn0
                        injection hn0 with h0
                      rw [hcur] at hrecs ha
                      subst ha
                      rw [← hrecs]
                      simp only [List.map_append, List.length_append, Option.getD_some]
                      rw [← hn0'] at hmap
                      rw [hmap]
                      simp [List.range_succ]
                  · rw [lookupA_setA_other hvw] at hw
                    exact hP w recs hw
              · rename_i s hnf
                have hwfv : isNetOrNone (NVal.str s) = true :=
                  hwf _ (lookupA_mem hni) _ (lookupA_mem hnf) rfl
                exact Bool.noConfusion hwfv
              · cases h
          · cases h
      · have h' : (Except.ok st : Except Err DhcpConfs) = .ok st' := h
        injection h' with h''
        exact h'' ▸ hP

/-- Claim C8: whenever the allocation loop succeeds (on networks whose
`network_fixed` entries are networks or `None`), every network group's
records carry consecutive, gap-free addresses starting at the first address
of that network's allocated free block, in the order the loop produced them
(ascending VM display-name order, ascending interface-section order within a
VM). The spec's two-VM instance — alpha before beta on `192.168.1.64/26` —
is the witness below. -/
theorem alloc_sequential (networks : NetworksMap) (vms : List VM) (confs : DhcpConfs)
    (hwf : NetworkFixedWF networks) (hrun : allocRun networks vms = .ok confs) :
    ∀ vmnet recs, lookupA vmnet confs = some recs →
      ∃ n, netFixedLookup networks vmnet = some n ∧
        recs.map OutputRec.ip = (List.range recs.length).map (fun i => IpVal.addr (n.addr + i)) := by
  unfold allocRun at hrun
  cases hs : pySortVMs vms with
  | error e =>
    rw [hs] at hrun
    cases hrun
  | ok sortedVMs =>
    rw [hs] at hrun
    have hstepVM : ∀ s vm s', AllocInv networks s → allocVM networks s vm = .ok s' →
        AllocInv networks s' := by
      intro s vm s' hPs hvm
      unfold allocVM at hvm
      exact foldlM_except_inv (AllocInv networks) (allocStep networks vm)
        (fun s1 a s1' hP1 h1 => allocStep_inv networks hwf vm s1 s1' a hP1 h1)
        (sortByKey vm.info) s s' hPs hvm
    have hinv : AllocInv networks confs :=
      foldlM_except_inv (AllocInv networks) (allocVM networks) hstepVM
        sortedVMs [] confs (fun w recs hw => by cases hw) hrun
    exact hinv

/-- Witness for C8: the spec's two-VM example, discovered out of name order —
alpha (sorted first) receives `192.168.1.64`, beta `192.168.1.65`. -/
theorem alloc_sequential_witness :
    NetworkFixedWF exAllocNetworks ∧
      allocRun exAllocNetworks [exVMBeta, exVMAlpha] = .ok exAllocConfs ∧
      (∀ vmnet recs, lookupA vmnet exAllocConfs = some recs →
        ∃ n, netFixedLookup exAllocNetworks vmnet = some n ∧
          recs.map OutputRec.ip =
            (List.range recs.length).map (fun i => IpVal.addr (n.addr + i))) :=
  ⟨by unfold NetworkFixedWF; decide, by decide,
    alloc_sequential exAllocNetworks [exVMBeta, exVMAlpha] exAllocConfs
      (by unfold NetworkFixedWF; decide) (by decide)⟩

end VMF
